import Mathlib

/-!
Shallow embedding of the kafkajs instrumentation core
(`src/instrumentations/external/kafkajs/kafkajs.ts` and its propagation
getter `propagtor.ts`), together with a model of the external
OpenTelemetry API surface it calls (tracer, propagation, context), as
specified at its interface in the repository's spec.

JavaScript values that matter to the finalizer (`_endSpansOnPromise`)
are modelled by `JSValue`; spans record their mutations as an ordered
event list so that "status set before end" and "ended exactly once" are
expressible.  Promise settlement is modelled by `Settled`; a wrapped
original call is `OrigBehavior`, covering both a synchronous throw and a
returned (settled) promise.
-/

set_option autoImplicit false

namespace SplunkKafka

/-- A JavaScript runtime value, in the fragment the finalizer's rejection
handling inspects: the catch handler only looks at `typeof reason`,
whether an object owns a `message` property, and `reason.message`, so an
object is modelled by whether it owns a `message` property (with its
value) plus an opaque tag abstracting all other state. -/
inductive JSValue where
  | vUndefined
  | vNull
  | vBool (b : Bool)
  | vNum (n : Int)
  | vStr (s : String)
  /-- an object owning a `message` property with the given value -/
  | vObjMsg (message : JSValue) (tag : String)
  /-- an object not owning a `message` property -/
  | vObjPlain (tag : String)
deriving DecidableEq, Repr

/-- JavaScript `typeof`; note `typeof null = "object"`. -/
def jsTypeof : JSValue → String
  | .vUndefined => "undefined"
  | .vNull => "object"
  | .vBool _ => "boolean"
  | .vNum _ => "number"
  | .vStr _ => "string"
  | .vObjMsg _ _ => "object"
  | .vObjPlain _ => "object"

/-- The `TypeError` produced by `ToObject(null)` /
`ToObject(undefined)` (e.g. by `Object.prototype.hasOwnProperty.call(null, k)`). -/
def typeErrorValue : JSValue :=
  .vObjMsg (.vStr "Cannot convert undefined or null to object") "TypeError"

/-- Embedding of `reason.message`: `none` models JS `undefined`. -/
def jsMessageProp : JSValue → Option JSValue
  | .vObjMsg m _ => some m
  | _ => none

/-- Embedding of `Object.prototype.hasOwnProperty.call(v, "message")`: throws a
`TypeError` on `null`/`undefined` receivers (`ToObject` fails); on
other primitives the transient wrapper object has no own `message`
property; on objects it tests the own property. -/
def hasOwnMessageProp (v : JSValue) : Except JSValue Bool :=
  match v with
  | .vUndefined => .error typeErrorValue
  | .vNull => .error typeErrorValue
  | .vObjMsg _ _ => .ok true
  | .vObjPlain _ => .ok false
  | _ => .ok false

/-- A kafkajs header value: a string, a byte buffer, or `undefined`
(kafkajs' `IHeaders` admits `undefined` entries). -/
inductive HeaderVal where
  | hvStr (s : String)
  | hvBuf (bytes : List Nat)
deriving DecidableEq, Repr

/-- A message's header mapping (`IHeaders`): string keys to values. -/
abbrev Headers := List (String × HeaderVal)

/-- JS property read `carrier[key]` on a header mapping. -/
def hdrLookup (key : String) : Headers → Option HeaderVal
  | [] => none
  | (k, v) :: t => if k = key then some v else hdrLookup key t

/-- Embedding of `Buffer.prototype.toString()` on a byte buffer: its natural text
representation (modelled as decoding each byte to a character). -/
def bufToString (bytes : List Nat) : String :=
  String.mk (bytes.map Char.ofNat)

/-- Embedding of `v.toString()` for a header value (total: header values here are
strings or buffers). -/
def headerValToString : HeaderVal → String
  | .hvStr s => s
  | .hvBuf bytes => bufToString bytes

/-- A `TextMapGetter`: reads propagation entries out of an optional
carrier.  `get` yields `none` for JS `undefined`. -/
structure TextMapGetterM where
  get : Option Headers → String → Option String
  keys : Option Headers → List String

/-- Embedding of `propagtor.ts`'s `bufferTextMapGetter`:
`get(carrier, key) = carrier?.[key]?.toString()` and
`keys(carrier) = carrier ? Object.keys(carrier) : []`.
Optional chaining makes an absent carrier or absent key yield `undefined`
(`none`) instead of throwing; buffer values are coerced to text. -/
def bufferTextMapGetter : TextMapGetterM where
  get carrier key :=
    match carrier with
    | none => none
    | some h =>
      match hdrLookup key h with
      | none => none
      | some v => some (headerValToString v)
  keys carrier :=
    match carrier with
    | none => []
    | some h => h.map Prod.fst

/-- Identifying context of a span: either freshly allocated by the local
tracer (numbered) or decoded from the wire (remote). -/
inductive SpanCtx where
  | fresh (n : Nat)
  | remote (wire : String)
deriving DecidableEq, Repr

/-- An OpenTelemetry `Context` (the fragment used here): the currently
active span's identifying context, if any.  Immutable; derived contexts
are built by replacing the active span. -/
structure Ctx where
  activeSpan : Option SpanCtx
deriving DecidableEq, Repr

/-- Embedding of `ROOT_CONTEXT`: the empty context. -/
def rootContext : Ctx := ⟨none⟩

/-- Embedding of `trace.setSpan(ctx, span)` at the context level: a derived context
with the given span context active. -/
def setSpanCtx (ctx : Ctx) (sc : SpanCtx) : Ctx :=
  { ctx with activeSpan := some sc }

/-- Wire encoding of a span context in the standard propagation format
(opaque to this core beyond inject/extract, per the spec). -/
def encodeSpanCtx : SpanCtx → String
  | .fresh n => "00-local-" ++ Nat.repr n
  | .remote wire => wire

/-- Wire decoding: a non-empty header string denotes a remote span
context; the empty string is not decodable. -/
def decodeTraceparent (s : String) : Option SpanCtx :=
  if s = "" then none else some (.remote s)

/-- Replace-or-append a header entry (JS `obj[key] = value` on a map). -/
def setHeader (h : Headers) (key : String) (v : HeaderVal) : Headers :=
  if (hdrLookup key h).isSome then
    h.map (fun p => if p.1 = key then (key, v) else p)
  else
    h ++ [(key, v)]

/-- Model of the external OpenTelemetry API per its interface contract in
the spec: `propagation.inject(ctx, carrier)` serializes the context's
active span into the carrier under the propagation key; with no active
span nothing is written. -/
def inject (ctx : Ctx) (h : Headers) : Headers :=
  match ctx.activeSpan with
  | none => h
  | some sc => setHeader h "traceparent" (.hvStr (encodeSpanCtx sc))

/-- Model of the external OpenTelemetry API per its interface contract in
the spec: `propagation.extract(base, carrier, getter)` reads the
propagation entry through the getter and, when it decodes, returns the
base context with the decoded remote span active; otherwise the base
context unchanged.  Never throws. -/
def extract (base : Ctx) (carrier : Option Headers) (getter : TextMapGetterM) : Ctx :=
  match getter.get carrier "traceparent" with
  | none => base
  | some s =>
    match decodeTraceparent s with
    | none => base
    | some sc => { base with activeSpan := some sc }

/-- Span kind. -/
inductive SpanKindM where
  | producer
  | consumer
deriving DecidableEq, Repr

/-- A status set by `span.setStatus`: a code (`2` = ERROR) and an
optional message (`none` models JS `undefined`; the code assigns the
raw rejection-derived value). -/
structure SpanStatusM where
  code : Nat
  message : Option JSValue
deriving DecidableEq, Repr

/-- A lifecycle mutation recorded on a span, in chronological order. -/
inductive SpanEvent where
  | setStatus (st : SpanStatusM)
  | ended
deriving DecidableEq, Repr

/-- A span: creation-time data (name, kind, attributes, links, parent
span context, own span context) plus its ordered mutation history. -/
structure Span where
  name : String
  kind : SpanKindM
  attributes : List (String × String)
  links : List SpanCtx
  parent : Option SpanCtx
  ctx : SpanCtx
  events : List SpanEvent
deriving DecidableEq, Repr

/-- How many times a span has been ended. -/
def endCount (s : Span) : Nat :=
  s.events.countP (fun e => e = .ended)

/-- Local tracer state: the next fresh span number. -/
structure TracerState where
  nextId : Nat
deriving DecidableEq, Repr

/-- Options passed to `tracer.startSpan`. -/
structure StartSpanOptions where
  kind : SpanKindM
  attributes : List (String × String)
  links : List SpanCtx
deriving DecidableEq, Repr

/-- Model of the external OpenTelemetry API per its interface contract in
the spec (§4.2/§6): `tracer.startSpan(name, options, context?)` starts the
span under the explicitly given context if provided, else under the
ambient active context; the new span's parent is that context's active
span. -/
def startSpan (ambient : Ctx) (st : TracerState) (name : String)
    (opts : StartSpanOptions) (explicitCtx : Option Ctx) : Span × TracerState :=
  let parentCtx := explicitCtx.getD ambient
  ({ name := name
     kind := opts.kind
     attributes := opts.attributes
     links := opts.links
     parent := parentCtx.activeSpan
     ctx := .fresh st.nextId
     events := [] },
   ⟨st.nextId + 1⟩)

/-- Behavior of a user-supplied hook: returns normally or throws. -/
inductive HookBehavior where
  | ok
  | throws (e : JSValue)
deriving DecidableEq, Repr

/-- The instrumentation config (`KafkaJsInstrumentationConfig` fragment
used by the core). -/
structure Config where
  producerHook : Option HookBehavior
  consumerHook : Option HookBehavior
  moduleVersionAttributeName : Option String
deriving DecidableEq, Repr

/-- Embedding of `_addModuleVersion`: sets the configured attribute only
when both the attribute name and a captured module version exist. -/
def addModuleVersion (cfg : Config) (moduleVersion : Option String) (s : Span) : Span :=
  match cfg.moduleVersionAttributeName with
  | none => s
  | some attrName =>
    match moduleVersion with
    | none => s
    | some v => { s with attributes := s.attributes ++ [(attrName, v)] }

/-- Model of `safeExecuteInTheMiddle(execute, onError, true)` from
`@opentelemetry/instrumentation`, as the spec specifies hook call sites:
the hook's exception, if any, is handed to the error callback (which
logs) and swallowed, never propagated. -/
def safeExecHook (hb : HookBehavior) (logMsg : String) : List String :=
  match hb with
  | .ok => []
  | .throws _ => [logMsg]

/-- A kafkajs message: an opaque body plus an optional header mapping. -/
structure Message where
  body : String
  headers : Option Headers
deriving DecidableEq, Repr

/-- Argument of `producer.send`: a topic and its messages. -/
structure ProducerRecord where
  topic : String
  messages : List Message
deriving DecidableEq, Repr

/-- One topic-group of a `sendBatch` argument. -/
structure TopicMessages where
  topic : String
  messages : List Message
deriving DecidableEq, Repr

/-- Argument of `producer.sendBatch`: optional list of topic-groups. -/
structure SendBatchArg where
  topicMessages : Option (List TopicMessages)
deriving DecidableEq, Repr

/-- Payload of an `eachMessage` consumer callback. -/
structure EachMessagePayload where
  topic : String
  message : Message
deriving DecidableEq, Repr

/-- The batch of an `eachBatch` consumer callback. -/
structure BatchPayload where
  topic : String
  messages : List Message
deriving DecidableEq, Repr

/-- Payload of an `eachBatch` consumer callback. -/
structure EachBatchPayload where
  batch : BatchPayload
deriving DecidableEq, Repr

/-- Consumer-span attributes built by `_startConsumerSpan`. -/
def consumerAttrs (topic operation : String) : List (String × String) :=
  [("messaging.system", "kafka"),
   ("messaging.destination", topic),
   ("messaging.destination_kind", "topic"),
   ("messaging.operation", operation)]

/-- Producer-span attributes built by `_startProducerSpan`. -/
def producerAttrs (topic : String) : List (String × String) :=
  [("messaging.system", "kafka"),
   ("messaging.destination", topic),
   ("messaging.destination_kind", "topic")]

/-- Result of `_startConsumerSpan`: the created span, the advanced tracer
state, diagnostic log output, and whether the consumer hook was run. -/
structure ConsumerSpanResult where
  span : Span
  tracer : TracerState
  log : List String
  hookCalled : Bool
deriving DecidableEq, Repr

/-- Embedding of `_startConsumerSpan`: starts a CONSUMER span with the
messaging attributes and the optional link, under the explicitly given
context if any (else the ambient active context), applies the module
version attribute, and runs the consumer hook through
`safeExecuteInTheMiddle` only when both a hook and a message are
present. -/
def startConsumerSpan (cfg : Config) (moduleVersion : Option String) (ambient : Ctx)
    (st : TracerState) (topic : String) (message : Option Message) (operation : String)
    (ctx : Option Ctx) (link : Option SpanCtx) : ConsumerSpanResult :=
  let p := startSpan ambient st topic
    { kind := .consumer
      attributes := consumerAttrs topic operation
      links := match link with | some l => [l] | none => [] } ctx
  let span := addModuleVersion cfg moduleVersion p.1
  match cfg.consumerHook, message with
  | some hb, some _ =>
    { span := span
      tracer := p.2
      log := safeExecHook hb "kafkajs instrumentation: consumerHook error"
      hookCalled := true }
  | _, _ => { span := span, tracer := p.2, log := [], hookCalled := false }

/-- Result of `_startProducerSpan`: the created span, the message after
its headers were ensured and injected into, the advanced tracer state,
log output, and whether the producer hook was run. -/
structure ProducerSpanResult where
  span : Span
  message : Message
  tracer : TracerState
  log : List String
  hookCalled : Bool
deriving DecidableEq, Repr

/-- Embedding of `_startProducerSpan`: starts a PRODUCER span with the
messaging attributes under the ambient active context (no explicit
context is passed), applies the module version attribute, ensures the
message's header mapping exists (`message.headers = message.headers ?? {}`),
injects the context combining the active context with the new span into
those headers, and runs the producer hook through
`safeExecuteInTheMiddle` when configured. -/
def startProducerSpan (cfg : Config) (moduleVersion : Option String) (ambient : Ctx)
    (st : TracerState) (topic : String) (message : Message) : ProducerSpanResult :=
  let p := startSpan ambient st topic
    { kind := .producer, attributes := producerAttrs topic, links := [] } none
  let span := addModuleVersion cfg moduleVersion p.1
  let ensured := message.headers.getD []
  let injected := inject (setSpanCtx ambient span.ctx) ensured
  let message' := { message with headers := some injected }
  match cfg.producerHook with
  | some hb =>
    { span := span
      message := message'
      tracer := p.2
      log := safeExecHook hb "kafkajs instrumentation: producerHook error"
      hookCalled := true }
  | none =>
    { span := span, message := message', tracer := p.2, log := [], hookCalled := false }

/-- A settled promise outcome. -/
inductive Settled where
  | resolved (v : JSValue)
  | rejected (reason : JSValue)
deriving DecidableEq, Repr

/-- The error-message computation inside `_endSpansOnPromise`'s catch
handler:
`if (typeof reason === 'string') errorMessage = reason;
 else if (typeof reason === 'object' &&
          Object.prototype.hasOwnProperty.call(reason, 'message'))
   errorMessage = reason.message;`
`none` models the declared-but-unassigned `errorMessage` (JS
`undefined`); the `Except.error` branch is the `TypeError` thrown by
`hasOwnProperty.call` on a `null` reason (`typeof null === 'object'`). -/
def computeErrorMessage (reason : JSValue) : Except JSValue (Option JSValue) :=
  if jsTypeof reason = "string" then
    .ok (some reason)
  else if jsTypeof reason = "object" then
    match hasOwnMessageProp reason with
    | .error e => .error e
    | .ok true => .ok (jsMessageProp reason)
    | .ok false => .ok none
  else
    .ok none

/-- Embedding of `span.setStatus` with code ERROR and the given message. -/
def setStatusError (msg : Option JSValue) (s : Span) : Span :=
  { s with events := s.events ++ [.setStatus ⟨2, msg⟩] }

/-- Embedding of `span.end()`. -/
def endSpan (s : Span) : Span :=
  { s with events := s.events ++ [.ended] }

/-- Embedding of `_endSpansOnPromise`:
`Promise.resolve(sendPromise).catch(handler).finally(endAll)` applied to
a settled input promise.  On resolution the catch handler is skipped; on
rejection the handler computes the error message (which itself throws a
`TypeError` when the reason is `null`), sets every span's status to
error, and re-throws the original reason; the `finally` continuation
ends every span whichever way the chain settled. -/
def endSpansOnPromise (spans : List Span) (p : Settled) : List Span × Settled :=
  match p with
  | .resolved v => (spans.map endSpan, .resolved v)
  | .rejected reason =>
    match computeErrorMessage reason with
    | .error e => (spans.map endSpan, .rejected e)
    | .ok msg => ((spans.map (setStatusError msg)).map endSpan, .rejected reason)

deriving instance DecidableEq for Except

/-- Behavior of a wrapped original call: it either throws synchronously
before producing a promise, or returns a promise with the given
(eventual) settlement. -/
inductive OrigBehavior where
  | syncThrow (e : JSValue)
  | returns (p : Settled)
deriving DecidableEq, Repr

/-- Accumulator for `record.messages.map(m => _startProducerSpan(topic, m))`:
the created spans, the messages after header mutation, the advanced
tracer state and log, in input order. -/
structure ProducerSpansAcc where
  spans : List Span
  messages : List Message
  tracer : TracerState
  log : List String
deriving DecidableEq, Repr

/-- Per-message producer-span creation over a message list (the `map`
inside the send patches), threading the tracer state left to right. -/
def mapProducerSpans (cfg : Config) (moduleVersion : Option String) (ambient : Ctx)
    (topic : String) : TracerState → List Message → ProducerSpansAcc
  | st, [] => ⟨[], [], st, []⟩
  | st, m :: ms =>
    let r := startProducerSpan cfg moduleVersion ambient st topic m
    let rest := mapProducerSpans cfg moduleVersion ambient topic r.tracer ms
    ⟨r.span :: rest.spans, r.message :: rest.messages, rest.tracer, r.log ++ rest.log⟩

/-- Result of an intercepted producer `send`: spans created (in creation
order), the record(s) the original was invoked with, and the overall
outcome — `Except.error e` models the wrapper itself throwing `e`
synchronously, `Except.ok s` the promise it returns settling as `s`. -/
structure SendPatchResult where
  spans : List Span
  origCalls : List ProducerRecord
  outcome : Except JSValue Settled
  tracer : TracerState
  log : List String
deriving DecidableEq, Repr

/-- Embedding of the wrapper built by `_getProducerSendPatch`: one
producer span per message of the record (mutating each message's
headers), then exactly one invocation of the original with the same
record object (its messages carrying the injected headers); if the
original throws synchronously the throw propagates and
`_endSpansOnPromise` is never reached, otherwise the returned promise is
wired through `_endSpansOnPromise`. -/
def patchedSend (cfg : Config) (moduleVersion : Option String) (ambient : Ctx)
    (st : TracerState) (record : ProducerRecord) (orig : OrigBehavior) : SendPatchResult :=
  let a := mapProducerSpans cfg moduleVersion ambient record.topic st record.messages
  let record' := { record with messages := a.messages }
  match orig with
  | .syncThrow e => ⟨a.spans, [record'], .error e, a.tracer, a.log⟩
  | .returns p =>
    let q := endSpansOnPromise a.spans p
    ⟨q.1, [record'], .ok q.2, a.tracer, a.log⟩

/-- Accumulator for the nested map over a `sendBatch` argument's
topic-groups: flattened spans (group order, then per-group message
order, as produced by `map` + `reduce(concat)`), the groups after header
mutation, tracer state and log. -/
structure BatchSpansAcc where
  spans : List Span
  groups : List TopicMessages
  tracer : TracerState
  log : List String
deriving DecidableEq, Repr

/-- Per-group producer-span creation over the topic-groups of a batch. -/
def mapBatchProducerSpans (cfg : Config) (moduleVersion : Option String) (ambient : Ctx) :
    TracerState → List TopicMessages → BatchSpansAcc
  | st, [] => ⟨[], [], st, []⟩
  | st, g :: gs =>
    let a := mapProducerSpans cfg moduleVersion ambient g.topic st g.messages
    let rest := mapBatchProducerSpans cfg moduleVersion ambient a.tracer gs
    ⟨a.spans ++ rest.spans, { g with messages := a.messages } :: rest.groups,
     rest.tracer, a.log ++ rest.log⟩

/-- Result of an intercepted producer `sendBatch`. -/
structure SendBatchPatchResult where
  spans : List Span
  origCalls : List SendBatchArg
  outcome : Except JSValue Settled
  tracer : TracerState
  log : List String
deriving DecidableEq, Repr

/-- Embedding of the wrapper built by `_getProducerSendBatchPatch`:
`batch.topicMessages || []` is flattened into one producer span per
message (group order then per-group message order); the original is
invoked exactly once with the same batch object (whose messages now
carry injected headers; an absent `topicMessages` stays absent); sync
throws propagate before `_endSpansOnPromise` is attached. -/
def patchedSendBatch (cfg : Config) (moduleVersion : Option String) (ambient : Ctx)
    (st : TracerState) (batch : SendBatchArg) (orig : OrigBehavior) : SendBatchPatchResult :=
  let groups := batch.topicMessages.getD []
  let a := mapBatchProducerSpans cfg moduleVersion ambient st groups
  let batch' : SendBatchArg :=
    match batch.topicMessages with
    | none => batch
    | some _ => ⟨some a.groups⟩
  match orig with
  | .syncThrow e => ⟨a.spans, [batch'], .error e, a.tracer, a.log⟩
  | .returns p =>
    let q := endSpansOnPromise a.spans p
    ⟨q.1, [batch'], .ok q.2, a.tracer, a.log⟩

/-- Result of an intercepted consumer callback (`eachMessage` or
`eachBatch`): spans created by the invocation (for `eachBatch` the
receive span first), the context the original handler ran under, and the
outcome. -/
structure ConsumePatchResult where
  spans : List Span
  handlerCtx : Ctx
  outcome : Except JSValue Settled
  tracer : TracerState
  log : List String
deriving DecidableEq, Repr

/-- Embedding of the wrapper built by `_getConsumerEachMessagePatch`:
extracts the propagated context from the message headers (from
`ROOT_CONTEXT`, via `bufferTextMapGetter`), starts one process consumer
span under that context, runs the original handler inside
`context.with(trace.setSpan(propagatedContext, span))`, and wires the
resulting promise through `_endSpansOnPromise`; a sync throw from the
handler propagates out of `context.with`. -/
def patchedEachMessage (cfg : Config) (moduleVersion : Option String) (ambient : Ctx)
    (st : TracerState) (payload : EachMessagePayload) (orig : OrigBehavior) : ConsumePatchResult :=
  let propagatedContext := extract rootContext payload.message.headers bufferTextMapGetter
  let r := startConsumerSpan cfg moduleVersion ambient st payload.topic
    (some payload.message) "process" (some propagatedContext) none
  let handlerCtx := setSpanCtx propagatedContext r.span.ctx
  match orig with
  | .syncThrow e => ⟨[r.span], handlerCtx, .error e, r.tracer, r.log⟩
  | .returns p =>
    let q := endSpansOnPromise [r.span] p
    ⟨q.1, handlerCtx, .ok q.2, r.tracer, r.log⟩

/-- The link computed for a batch message: the span context carried by
the context extracted from that message's own headers, when present
(`trace.getSpan(propagatedContext)?.spanContext()`). -/
def linkOfMessage (m : Message) : Option SpanCtx :=
  (extract rootContext m.headers bufferTextMapGetter).activeSpan

/-- Accumulator for the per-message consumer spans of a batch. -/
structure ConsumerSpansAcc where
  spans : List Span
  tracer : TracerState
  log : List String
deriving DecidableEq, Repr

/-- Per-message process-span creation inside the batch callback: each
message's context is extracted from its own headers and recorded only as
a link; no explicit context is passed to `_startConsumerSpan`, so the
span starts under the ambient context of the surrounding
`context.with` (in which the receive span is active). -/
def mapBatchConsumerSpans (cfg : Config) (moduleVersion : Option String)
    (innerAmbient : Ctx) (topic : String) : TracerState → List Message → ConsumerSpansAcc
  | st, [] => ⟨[], st, []⟩
  | st, m :: ms =>
    let r := startConsumerSpan cfg moduleVersion innerAmbient st topic
      (some m) "process" none (linkOfMessage m)
    let rest := mapBatchConsumerSpans cfg moduleVersion innerAmbient topic r.tracer ms
    ⟨r.span :: rest.spans, rest.tracer, r.log ++ rest.log⟩

/-- Embedding of the wrapper built by `_getConsumerEachBatchPatch`: one
receive consumer span (no message, explicit `ROOT_CONTEXT`), made active
via `context.with(trace.setSpan(context.active(), receivingSpan), ...)`;
inside, one process span per batch message (own extracted context as a
link only); the original handler is invoked once with the original
payload; the receive span is unshifted in front of the process spans and
the whole set is wired through `_endSpansOnPromise`; a sync throw from
the handler propagates before that attachment. -/
def patchedEachBatch (cfg : Config) (moduleVersion : Option String) (ambient : Ctx)
    (st : TracerState) (payload : EachBatchPayload) (orig : OrigBehavior) : ConsumePatchResult :=
  let r0 := startConsumerSpan cfg moduleVersion ambient st payload.batch.topic
    none "receive" (some rootContext) none
  let innerAmbient := setSpanCtx ambient r0.span.ctx
  let a := mapBatchConsumerSpans cfg moduleVersion innerAmbient payload.batch.topic
    r0.tracer payload.batch.messages
  let spans := r0.span :: a.spans
  match orig with
  | .syncThrow e => ⟨spans, innerAmbient, .error e, a.tracer, r0.log ++ a.log⟩
  | .returns p =>
    let q := endSpansOnPromise spans p
    ⟨q.1, innerAmbient, .ok q.2, a.tracer, r0.log ++ a.log⟩

/-! ### Helper lemmas -/

/-- The module-version attribute entries `_addModuleVersion` appends. -/
def mvAttrs (cfg : Config) (moduleVersion : Option String) : List (String × String) :=
  match cfg.moduleVersionAttributeName, moduleVersion with
  | some a, some v => [(a, v)]
  | _, _ => []

theorem addModuleVersion_eq (cfg : Config) (mv : Option String) (s : Span) :
    addModuleVersion cfg mv s = { s with attributes := s.attributes ++ mvAttrs cfg mv } := by
  unfold addModuleVersion mvAttrs
  cases cfg.moduleVersionAttributeName <;> cases mv <;> simp

@[simp] theorem endSpan_name (s : Span) : (endSpan s).name = s.name := rfl

@[simp] theorem endSpan_kind (s : Span) : (endSpan s).kind = s.kind := rfl

@[simp] theorem endSpan_attributes (s : Span) : (endSpan s).attributes = s.attributes := rfl

@[simp] theorem endSpan_links (s : Span) : (endSpan s).links = s.links := rfl

@[simp] theorem endSpan_parent (s : Span) : (endSpan s).parent = s.parent := rfl

@[simp] theorem endSpan_ctx (s : Span) : (endSpan s).ctx = s.ctx := rfl

@[simp] theorem setStatusError_name (m : Option JSValue) (s : Span) :
    (setStatusError m s).name = s.name := rfl

@[simp] theorem setStatusError_kind (m : Option JSValue) (s : Span) :
    (setStatusError m s).kind = s.kind := rfl

@[simp] theorem setStatusError_attributes (m : Option JSValue) (s : Span) :
    (setStatusError m s).attributes = s.attributes := rfl

@[simp] theorem setStatusError_links (m : Option JSValue) (s : Span) :
    (setStatusError m s).links = s.links := rfl

@[simp] theorem setStatusError_parent (m : Option JSValue) (s : Span) :
    (setStatusError m s).parent = s.parent := rfl

@[simp] theorem setStatusError_ctx (m : Option JSValue) (s : Span) :
    (setStatusError m s).ctx = s.ctx := rfl

@[simp] theorem endCount_endSpan (s : Span) : endCount (endSpan s) = endCount s + 1 := by
  simp [endCount, endSpan, List.countP_append, List.countP_cons]

@[simp] theorem endCount_setStatusError (m : Option JSValue) (s : Span) :
    endCount (setStatusError m s) = endCount s := by
  simp [endCount, setStatusError, List.countP_append, List.countP_cons]

/-- A rejection reason other than `null` never makes the catch handler's
error-message computation throw. -/
theorem computeErrorMessage_ok (reason : JSValue) (h : reason ≠ .vNull) :
    computeErrorMessage reason = .ok (if jsTypeof reason = "string" then some reason
                                      else jsMessageProp reason) := by
  cases reason <;> simp_all [computeErrorMessage, jsTypeof, hasOwnMessageProp, jsMessageProp]

theorem computeErrorMessage_null : computeErrorMessage .vNull = .error typeErrorValue := rfl

theorem endSpansOnPromise_map_endCount (spans : List Span) (p : Settled) :
    (endSpansOnPromise spans p).1.map endCount = spans.map (fun s => endCount s + 1) := by
  unfold endSpansOnPromise
  cases p with
  | resolved v => simp [List.map_map, Function.comp]
  | rejected reason =>
    cases hm : computeErrorMessage reason <;>
      simp [hm, List.map_map, Function.comp]

/-- The finalizer only appends lifecycle events: every creation-time
component of every span is preserved. -/
theorem endSpansOnPromise_map_proj {α : Type} (f : Span → α)
    (hf1 : ∀ s, f (endSpan s) = f s)
    (hf2 : ∀ m s, f (setStatusError m s) = f s)
    (spans : List Span) (p : Settled) :
    (endSpansOnPromise spans p).1.map f = spans.map f := by
  unfold endSpansOnPromise
  cases p with
  | resolved v => simp [List.map_map, Function.comp, hf1]
  | rejected reason =>
    cases hm : computeErrorMessage reason <;>
      simp [hm, List.map_map, Function.comp, hf1, hf2]

theorem endSpansOnPromise_resolved (spans : List Span) (v : JSValue) :
    (endSpansOnPromise spans (.resolved v)).2 = .resolved v := rfl

theorem endSpansOnPromise_rejected (spans : List Span) (reason : JSValue)
    (h : reason ≠ .vNull) :
    (endSpansOnPromise spans (.rejected reason)).2 = .rejected reason := by
  simp [endSpansOnPromise, computeErrorMessage_ok reason h]

theorem hdrLookup_replaceKey (k : String) (v : HeaderVal) :
    ∀ h : Headers, (hdrLookup k h).isSome = true →
      hdrLookup k (h.map (fun p => if p.1 = k then (k, v) else p)) = some v
  | [], hc => by simp [hdrLookup] at hc
  | (ak, av) :: t, hc => by
    by_cases hak : ak = k
    · subst hak
      rw [List.map_cons,
        show (if ((ak, av) : String × HeaderVal).1 = ak then (ak, v) else (ak, av)) = (ak, v) from by simp]
      simp [hdrLookup]
    · have hc' : (hdrLookup k t).isSome = true := by
        simpa [hdrLookup, hak] using hc
      rw [List.map_cons,
        show (if ((ak, av) : String × HeaderVal).1 = k then (k, v) else (ak, av)) = (ak, av) from by simp [hak]]
      show (if ak = k then some av else hdrLookup k (t.map fun p => if p.1 = k then (k, v) else p)) = some v
      rw [if_neg hak]
      exact hdrLookup_replaceKey k v t hc'

theorem hdrLookup_append_none (k : String) (v : HeaderVal) :
    ∀ h : Headers, hdrLookup k h = none → hdrLookup k (h ++ [(k, v)]) = some v
  | [], _ => by simp [hdrLookup]
  | (ak, av) :: t, hc => by
    by_cases hak : ak = k
    · simp [hdrLookup, hak] at hc
    · have hc' : hdrLookup k t = none := by simpa [hdrLookup, hak] using hc
      simpa [hdrLookup, hak] using hdrLookup_append_none k v t hc'

theorem hdrLookup_setHeader (h : Headers) (k : String) (v : HeaderVal) :
    hdrLookup k (setHeader h k v) = some v := by
  unfold setHeader
  split
  case isTrue hc => exact hdrLookup_replaceKey k v h hc
  case isFalse hc =>
    have hn : hdrLookup k h = none := by
      cases hx : hdrLookup k h with
      | none => rfl
      | some w => exact absurd (by simp [hx]) hc
    exact hdrLookup_append_none k v h hn

theorem startConsumerSpan_span (cfg : Config) (mv : Option String) (ambient : Ctx)
    (st : TracerState) (topic : String) (message : Option Message) (operation : String)
    (ctx : Option Ctx) (link : Option SpanCtx) :
    (startConsumerSpan cfg mv ambient st topic message operation ctx link).span =
      { name := topic
        kind := .consumer
        attributes := consumerAttrs topic operation ++ mvAttrs cfg mv
        links := link.toList
        parent := (ctx.getD ambient).activeSpan
        ctx := .fresh st.nextId
        events := [] } := by
  unfold startConsumerSpan startSpan
  cases cfg.consumerHook <;> cases message <;> cases link <;>
    simp [addModuleVersion_eq, Option.toList]

theorem startConsumerSpan_tracer (cfg : Config) (mv : Option String) (ambient : Ctx)
    (st : TracerState) (topic : String) (message : Option Message) (operation : String)
    (ctx : Option Ctx) (link : Option SpanCtx) :
    (startConsumerSpan cfg mv ambient st topic message operation ctx link).tracer =
      ⟨st.nextId + 1⟩ := by
  unfold startConsumerSpan startSpan
  cases cfg.consumerHook <;> cases message <;> simp

theorem startProducerSpan_span (cfg : Config) (mv : Option String) (ambient : Ctx)
    (st : TracerState) (topic : String) (message : Message) :
    (startProducerSpan cfg mv ambient st topic message).span =
      { name := topic
        kind := .producer
        attributes := producerAttrs topic ++ mvAttrs cfg mv
        links := []
        parent := ambient.activeSpan
        ctx := .fresh st.nextId
        events := [] } := by
  unfold startProducerSpan startSpan
  cases cfg.producerHook <;> simp [addModuleVersion_eq]

theorem startProducerSpan_message (cfg : Config) (mv : Option String) (ambient : Ctx)
    (st : TracerState) (topic : String) (message : Message) :
    (startProducerSpan cfg mv ambient st topic message).message =
      { message with headers := some (inject (setSpanCtx ambient (.fresh st.nextId)) (message.headers.getD [])) } := by
  unfold startProducerSpan startSpan
  cases cfg.producerHook <;> simp [addModuleVersion_eq]

theorem startProducerSpan_tracer (cfg : Config) (mv : Option String) (ambient : Ctx)
    (st : TracerState) (topic : String) (message : Message) :
    (startProducerSpan cfg mv ambient st topic message).tracer = ⟨st.nextId + 1⟩ := by
  unfold startProducerSpan startSpan
  cases cfg.producerHook <;> simp

/-- A message with its headers dropped: used to state that the wrappers
pass the original payload through unchanged except for the header
injection they perform. -/
def eraseMsgHeaders (m : Message) : Message := { m with headers := none }

/-- A topic-group with all message headers dropped. -/
def eraseGroupHeaders (g : TopicMessages) : TopicMessages :=
  { g with messages := g.messages.map eraseMsgHeaders }

/-- A `sendBatch` argument with all message headers dropped. -/
def eraseBatchHeaders (b : SendBatchArg) : SendBatchArg :=
  ⟨b.topicMessages.map (fun gs => gs.map eraseGroupHeaders)⟩

theorem mapProducerSpans_map_events (cfg : Config) (mv : Option String) (ambient : Ctx)
    (topic : String) (st : TracerState) (ms : List Message) :
    (mapProducerSpans cfg mv ambient topic st ms).spans.map Span.events =
      ms.map (fun _ => ([] : List SpanEvent)) := by
  induction ms generalizing st with
  | nil => simp [mapProducerSpans]
  | cons m t ih => simp [mapProducerSpans, startProducerSpan_span, ih]

theorem mapProducerSpans_map_endCount (cfg : Config) (mv : Option String) (ambient : Ctx)
    (topic : String) (st : TracerState) (ms : List Message) :
    (mapProducerSpans cfg mv ambient topic st ms).spans.map endCount =
      ms.map (fun _ => 0) := by
  induction ms generalizing st with
  | nil => simp [mapProducerSpans]
  | cons m t ih => simp [mapProducerSpans, startProducerSpan_span, ih, endCount]

theorem mapProducerSpans_map_name (cfg : Config) (mv : Option String) (ambient : Ctx)
    (topic : String) (st : TracerState) (ms : List Message) :
    (mapProducerSpans cfg mv ambient topic st ms).spans.map Span.name =
      ms.map (fun _ => topic) := by
  induction ms generalizing st with
  | nil => simp [mapProducerSpans]
  | cons m t ih => simp [mapProducerSpans, startProducerSpan_span, ih]

theorem mapProducerSpans_map_kind (cfg : Config) (mv : Option String) (ambient : Ctx)
    (topic : String) (st : TracerState) (ms : List Message) :
    (mapProducerSpans cfg mv ambient topic st ms).spans.map Span.kind =
      ms.map (fun _ => SpanKindM.producer) := by
  induction ms generalizing st with
  | nil => simp [mapProducerSpans]
  | cons m t ih => simp [mapProducerSpans, startProducerSpan_span, ih]

/-- The span contexts the local tracer allocates for `n` consecutive
`startSpan` calls beginning at number `start`, in creation order. -/
def freshSeq (start : Nat) : Nat → List SpanCtx
  | 0 => []
  | n + 1 => SpanCtx.fresh start :: freshSeq (start + 1) n

theorem freshSeq_add : ∀ (a b s : Nat), freshSeq s (a + b) = freshSeq s a ++ freshSeq (s + a) b
  | 0, b, s => by simp [freshSeq]
  | a + 1, b, s => by
    have h1 : a + 1 + b = (a + b) + 1 := by omega
    rw [h1]
    show SpanCtx.fresh s :: freshSeq (s + 1) (a + b) =
      (SpanCtx.fresh s :: freshSeq (s + 1) a) ++ freshSeq (s + (a + 1)) b
    rw [List.cons_append, freshSeq_add a b (s + 1),
      show s + 1 + a = s + (a + 1) from by omega]

theorem mapProducerSpans_map_ctx (cfg : Config) (mv : Option String) (ambient : Ctx)
    (topic : String) (st : TracerState) (ms : List Message) :
    (mapProducerSpans cfg mv ambient topic st ms).spans.map Span.ctx =
      freshSeq st.nextId ms.length := by
  induction ms generalizing st with
  | nil => simp [mapProducerSpans, freshSeq]
  | cons m t ih =>
    simp [mapProducerSpans, startProducerSpan_span, startProducerSpan_tracer, freshSeq, ih]

theorem mapProducerSpans_tracer (cfg : Config) (mv : Option String) (ambient : Ctx)
    (topic : String) (st : TracerState) (ms : List Message) :
    (mapProducerSpans cfg mv ambient topic st ms).tracer = ⟨st.nextId + ms.length⟩ := by
  induction ms generalizing st with
  | nil => cases st; simp [mapProducerSpans]
  | cons m t ih =>
    simp only [mapProducerSpans, startProducerSpan_tracer, ih, List.length_cons]
    congr 1
    omega

theorem mapProducerSpans_messages_lookup (cfg : Config) (mv : Option String) (ambient : Ctx)
    (topic : String) (st : TracerState) (ms : List Message) :
    (mapProducerSpans cfg mv ambient topic st ms).messages.map
        (fun m => m.headers.bind (hdrLookup "traceparent")) =
      (mapProducerSpans cfg mv ambient topic st ms).spans.map
        (fun s => some (HeaderVal.hvStr (encodeSpanCtx s.ctx))) := by
  induction ms generalizing st with
  | nil => simp [mapProducerSpans]
  | cons m t ih =>
    simp only [mapProducerSpans, List.map_cons, startProducerSpan_span,
      startProducerSpan_message, ih]
    congr 1
    simp [inject, setSpanCtx, hdrLookup_setHeader]

theorem mapProducerSpans_messages_isSome (cfg : Config) (mv : Option String) (ambient : Ctx)
    (topic : String) (st : TracerState) (ms : List Message) :
    (mapProducerSpans cfg mv ambient topic st ms).messages.map
        (fun m => m.headers.isSome) = ms.map (fun _ => true) := by
  induction ms generalizing st with
  | nil => simp [mapProducerSpans]
  | cons m t ih =>
    simp [mapProducerSpans, startProducerSpan_message, ih]

theorem mapProducerSpans_messages_erase (cfg : Config) (mv : Option String) (ambient : Ctx)
    (topic : String) (st : TracerState) (ms : List Message) :
    (mapProducerSpans cfg mv ambient topic st ms).messages.map eraseMsgHeaders =
      ms.map eraseMsgHeaders := by
  induction ms generalizing st with
  | nil => simp [mapProducerSpans]
  | cons m t ih =>
    simp [mapProducerSpans, startProducerSpan_message, ih, eraseMsgHeaders]

theorem mapProducerSpans_length (cfg : Config) (mv : Option String) (ambient : Ctx)
    (topic : String) (st : TracerState) (ms : List Message) :
    (mapProducerSpans cfg mv ambient topic st ms).spans.length = ms.length := by
  have h := mapProducerSpans_map_events cfg mv ambient topic st ms
  have := congrArg List.length h
  simpa using this

/-- The total number of messages in a list of topic-groups. -/
def totalMessages (gs : List TopicMessages) : Nat :=
  (gs.map (fun g => g.messages.length)).sum

theorem map_const_replicate {A B : Type} (b : B) (l : List A) :
    l.map (fun _ => b) = List.replicate l.length b := by
  induction l with
  | nil => rfl
  | cons a t ih => simp [ih, List.replicate_succ]

theorem mapBatchProducerSpans_map_name (cfg : Config) (mv : Option String) (ambient : Ctx)
    (st : TracerState) (gs : List TopicMessages) :
    (mapBatchProducerSpans cfg mv ambient st gs).spans.map Span.name =
      (gs.map (fun g => g.messages.map (fun _ => g.topic))).flatten := by
  induction gs generalizing st with
  | nil => simp [mapBatchProducerSpans]
  | cons g t ih =>
    simp [mapBatchProducerSpans, mapProducerSpans_map_name, ih]

theorem mapBatchProducerSpans_map_kind (cfg : Config) (mv : Option String) (ambient : Ctx)
    (st : TracerState) (gs : List TopicMessages) :
    (mapBatchProducerSpans cfg mv ambient st gs).spans.map Span.kind =
      List.replicate (totalMessages gs) SpanKindM.producer := by
  induction gs generalizing st with
  | nil => simp [mapBatchProducerSpans, totalMessages]
  | cons g t ih =>
    simp only [mapBatchProducerSpans, List.map_append, mapProducerSpans_map_kind,
      mapProducerSpans_tracer, ih, totalMessages, List.map_cons, List.sum_cons,
      List.replicate_add]
    rw [map_const_replicate]

theorem mapBatchProducerSpans_map_endCount (cfg : Config) (mv : Option String) (ambient : Ctx)
    (st : TracerState) (gs : List TopicMessages) :
    (mapBatchProducerSpans cfg mv ambient st gs).spans.map endCount =
      List.replicate (totalMessages gs) 0 := by
  induction gs generalizing st with
  | nil => simp [mapBatchProducerSpans, totalMessages]
  | cons g t ih =>
    simp only [mapBatchProducerSpans, List.map_append, mapProducerSpans_map_endCount,
      mapProducerSpans_tracer, ih, totalMessages, List.map_cons, List.sum_cons,
      List.replicate_add]
    rw [map_const_replicate]

theorem mapBatchProducerSpans_map_ctx (cfg : Config) (mv : Option String) (ambient : Ctx)
    (st : TracerState) (gs : List TopicMessages) :
    (mapBatchProducerSpans cfg mv ambient st gs).spans.map Span.ctx =
      freshSeq st.nextId (totalMessages gs) := by
  induction gs generalizing st with
  | nil => simp [mapBatchProducerSpans, totalMessages, freshSeq]
  | cons g t ih =>
    simp only [mapBatchProducerSpans, List.map_append, mapProducerSpans_map_ctx,
      mapProducerSpans_tracer, ih, totalMessages, List.map_cons, List.sum_cons]
    rw [freshSeq_add]

theorem mapBatchProducerSpans_tracer (cfg : Config) (mv : Option String) (ambient : Ctx)
    (st : TracerState) (gs : List TopicMessages) :
    (mapBatchProducerSpans cfg mv ambient st gs).tracer = ⟨st.nextId + totalMessages gs⟩ := by
  induction gs generalizing st with
  | nil => cases st; simp [mapBatchProducerSpans, totalMessages]
  | cons g t ih =>
    simp only [mapBatchProducerSpans, mapProducerSpans_tracer, ih, totalMessages,
      List.map_cons, List.sum_cons]
    congr 1
    omega

theorem mapBatchProducerSpans_groups_erase (cfg : Config) (mv : Option String) (ambient : Ctx)
    (st : TracerState) (gs : List TopicMessages) :
    (mapBatchProducerSpans cfg mv ambient st gs).groups.map eraseGroupHeaders =
      gs.map eraseGroupHeaders := by
  induction gs generalizing st with
  | nil => simp [mapBatchProducerSpans]
  | cons g t ih =>
    simp [mapBatchProducerSpans, ih, eraseGroupHeaders, mapProducerSpans_messages_erase]

theorem mapBatchProducerSpans_lookup (cfg : Config) (mv : Option String) (ambient : Ctx)
    (st : TracerState) (gs : List TopicMessages) :
    ((mapBatchProducerSpans cfg mv ambient st gs).groups.map
        (fun g => g.messages.map (fun m => m.headers.bind (hdrLookup "traceparent")))).flatten =
      (mapBatchProducerSpans cfg mv ambient st gs).spans.map
        (fun s => some (HeaderVal.hvStr (encodeSpanCtx s.ctx))) := by
  induction gs generalizing st with
  | nil => simp [mapBatchProducerSpans]
  | cons g t ih =>
    simp [mapBatchProducerSpans, ih, mapProducerSpans_messages_lookup]

theorem mapBatchConsumerSpans_map_links (cfg : Config) (mv : Option String) (inner : Ctx)
    (topic : String) (st : TracerState) (ms : List Message) :
    (mapBatchConsumerSpans cfg mv inner topic st ms).spans.map Span.links =
      ms.map (fun m => (linkOfMessage m).toList) := by
  induction ms generalizing st with
  | nil => simp [mapBatchConsumerSpans]
  | cons m t ih =>
    simp [mapBatchConsumerSpans, startConsumerSpan_span, ih]

theorem mapBatchConsumerSpans_map_parent (cfg : Config) (mv : Option String) (inner : Ctx)
    (topic : String) (st : TracerState) (ms : List Message) :
    (mapBatchConsumerSpans cfg mv inner topic st ms).spans.map Span.parent =
      ms.map (fun _ => inner.activeSpan) := by
  induction ms generalizing st with
  | nil => simp [mapBatchConsumerSpans]
  | cons m t ih =>
    simp [mapBatchConsumerSpans, startConsumerSpan_span, ih]

theorem mapBatchConsumerSpans_map_kind (cfg : Config) (mv : Option String) (inner : Ctx)
    (topic : String) (st : TracerState) (ms : List Message) :
    (mapBatchConsumerSpans cfg mv inner topic st ms).spans.map Span.kind =
      ms.map (fun _ => SpanKindM.consumer) := by
  induction ms generalizing st with
  | nil => simp [mapBatchConsumerSpans]
  | cons m t ih =>
    simp [mapBatchConsumerSpans, startConsumerSpan_span, ih]

theorem mapBatchConsumerSpans_map_attributes (cfg : Config) (mv : Option String) (inner : Ctx)
    (topic : String) (st : TracerState) (ms : List Message) :
    (mapBatchConsumerSpans cfg mv inner topic st ms).spans.map Span.attributes =
      ms.map (fun _ => consumerAttrs topic "process" ++ mvAttrs cfg mv) := by
  induction ms generalizing st with
  | nil => simp [mapBatchConsumerSpans]
  | cons m t ih =>
    simp [mapBatchConsumerSpans, startConsumerSpan_span, ih]

theorem mapBatchConsumerSpans_map_endCount (cfg : Config) (mv : Option String) (inner : Ctx)
    (topic : String) (st : TracerState) (ms : List Message) :
    (mapBatchConsumerSpans cfg mv inner topic st ms).spans.map endCount =
      ms.map (fun _ => 0) := by
  induction ms generalizing st with
  | nil => simp [mapBatchConsumerSpans]
  | cons m t ih =>
    simp [mapBatchConsumerSpans, startConsumerSpan_span, ih, endCount]

theorem mapBatchConsumerSpans_length (cfg : Config) (mv : Option String) (inner : Ctx)
    (topic : String) (st : TracerState) (ms : List Message) :
    (mapBatchConsumerSpans cfg mv inner topic st ms).spans.length = ms.length := by
  have h := mapBatchConsumerSpans_map_kind cfg mv inner topic st ms
  have := congrArg List.length h
  simpa using this

theorem mapBatchConsumerSpans_map_ctx (cfg : Config) (mv : Option String) (inner : Ctx)
    (topic : String) (st : TracerState) (ms : List Message) :
    (mapBatchConsumerSpans cfg mv inner topic st ms).spans.map Span.ctx =
      freshSeq st.nextId ms.length := by
  induction ms generalizing st with
  | nil => simp [mapBatchConsumerSpans, freshSeq]
  | cons m t ih =>
    simp [mapBatchConsumerSpans, startConsumerSpan_span, startConsumerSpan_tracer, freshSeq, ih]

/-- Spans entering the finalizer unended come out ended exactly once. -/
theorem map_endCount_after (spans : List Span) (p : Settled) {n : Nat}
    (h : spans.map endCount = List.replicate n 0) :
    (endSpansOnPromise spans p).1.map endCount = List.replicate n 1 := by
  rw [endSpansOnPromise_map_endCount]
  have h2 : spans.map (fun s => endCount s + 1) = (spans.map endCount).map (fun x => x + 1) := by
    rw [List.map_map]
    rfl
  rw [h2, h]
  simp [List.map_replicate]

/-! ### Fixtures for concrete evaluations -/

/-- An empty instrumentation config: no hooks, no module-version attribute. -/
def emptyConfig : Config := ⟨none, none, none⟩

/-- A single-message `send` record for the "orders" topic. -/
def ordersRecord : ProducerRecord := ⟨"orders", [⟨"m1", none⟩]⟩

/-- A one-message batch-consume payload whose message carries a
decodable remote producer context in its headers. -/
def eventsBatchPayload : EachBatchPayload :=
  ⟨⟨"events", [⟨"b1", some [("traceparent", .hvStr "00-abc")]⟩]⟩⟩

/-- A bare, unended producer span used to probe the finalizer. -/
def probeSpanA : Span := ⟨"t", .producer, [], [], none, .fresh 0, []⟩

/-- A bare, unended consumer span used to probe the finalizer. -/
def probeSpanB : Span := ⟨"u", .consumer, [], [], none, .fresh 1, []⟩

/-! ### Claims -/

/-- C1, counterexample: when the wrapped original `send` throws
synchronously before producing a promise, the patched send does preserve
the throw, but the producer span it already created is ended zero times
(its event list never receives an `ended` event), contradicting the
claim that all already-created spans are still ended in this case. -/
theorem C1_counterexample :
    (patchedSend emptyConfig none rootContext ⟨0⟩ ordersRecord
        (.syncThrow (.vStr "boom"))).outcome = .error (.vStr "boom") ∧
    (patchedSend emptyConfig none rootContext ⟨0⟩ ordersRecord
        (.syncThrow (.vStr "boom"))).spans.map endCount = [0] := by
  decide

/-- C1 (amended): for each of the four intercepted operations (single
send, sendBatch, eachMessage, eachBatch), when the wrapped original call
returns a promise, every span created for that operation is ended
exactly once (the single `finally` continuation, running once on either
outcome path); but when the wrapped original call throws synchronously
before producing a promise, the original throw is preserved and the
already-created spans are ended zero times — they are never closed. -/
theorem C1_amended (cfg : Config) (mv : Option String) (ambient : Ctx) (st : TracerState)
    (record : ProducerRecord) (batch : SendBatchArg) (pm : EachMessagePayload)
    (pb : EachBatchPayload) (p : Settled) (e : JSValue) :
    ((patchedSend cfg mv ambient st record (.returns p)).spans.map endCount =
      List.replicate record.messages.length 1) ∧
    ((patchedSendBatch cfg mv ambient st batch (.returns p)).spans.map endCount =
      List.replicate (totalMessages (batch.topicMessages.getD [])) 1) ∧
    ((patchedEachMessage cfg mv ambient st pm (.returns p)).spans.map endCount = [1]) ∧
    ((patchedEachBatch cfg mv ambient st pb (.returns p)).spans.map endCount =
      List.replicate (pb.batch.messages.length + 1) 1) ∧
    ((patchedSend cfg mv ambient st record (.syncThrow e)).outcome = .error e) ∧
    ((patchedSend cfg mv ambient st record (.syncThrow e)).spans.map endCount =
      List.replicate record.messages.length 0) ∧
    ((patchedSendBatch cfg mv ambient st batch (.syncThrow e)).outcome = .error e) ∧
    ((patchedSendBatch cfg mv ambient st batch (.syncThrow e)).spans.map endCount =
      List.replicate (totalMessages (batch.topicMessages.getD [])) 0) ∧
    ((patchedEachMessage cfg mv ambient st pm (.syncThrow e)).outcome = .error e) ∧
    ((patchedEachMessage cfg mv ambient st pm (.syncThrow e)).spans.map endCount = [0]) ∧
    ((patchedEachBatch cfg mv ambient st pb (.syncThrow e)).outcome = .error e) ∧
    ((patchedEachBatch cfg mv ambient st pb (.syncThrow e)).spans.map endCount =
      List.replicate (pb.batch.messages.length + 1) 0) := by
  have hsend0 : (mapProducerSpans cfg mv ambient record.topic st record.messages).spans.map
      endCount = List.replicate record.messages.length 0 := by
    rw [mapProducerSpans_map_endCount, map_const_replicate]
  have hbatch0 : (mapBatchProducerSpans cfg mv ambient st (batch.topicMessages.getD [])).spans.map
      endCount = List.replicate (totalMessages (batch.topicMessages.getD [])) 0 :=
    mapBatchProducerSpans_map_endCount cfg mv ambient st (batch.topicMessages.getD [])
  have hem0 : (patchedEachMessage cfg mv ambient st pm (.syncThrow e)).spans.map endCount
      = [0] := by
    simp [patchedEachMessage, startConsumerSpan_span, endCount]
  have hrecv0 : endCount (startConsumerSpan cfg mv ambient st pb.batch.topic none "receive"
      (some rootContext) none).span = 0 := by
    rw [startConsumerSpan_span]
    simp [endCount]
  have heb0 : List.map endCount
        ((startConsumerSpan cfg mv ambient st pb.batch.topic none "receive"
            (some rootContext) none).span ::
          (mapBatchConsumerSpans cfg mv
            (setSpanCtx ambient (startConsumerSpan cfg mv ambient st pb.batch.topic none "receive"
              (some rootContext) none).span.ctx)
            pb.batch.topic
            (startConsumerSpan cfg mv ambient st pb.batch.topic none "receive"
              (some rootContext) none).tracer pb.batch.messages).spans)
      = List.replicate (pb.batch.messages.length + 1) 0 := by
    rw [List.map_cons, hrecv0, mapBatchConsumerSpans_map_endCount, map_const_replicate,
      List.replicate_succ]
  refine ⟨?_, ?_, ?_, ?_, ?_, ?_, ?_, ?_, ?_, ?_, ?_, ?_⟩
  · simp only [patchedSend]
    exact map_endCount_after _ p hsend0
  · simp only [patchedSendBatch]
    exact map_endCount_after _ p hbatch0
  · simp only [patchedEachMessage]
    show List.map endCount _ = List.replicate 1 1
    refine map_endCount_after _ p ?_
    simp [startConsumerSpan_span, endCount]
  · simp only [patchedEachBatch]
    exact map_endCount_after _ p heb0
  · rfl
  · simp only [patchedSend]
    exact hsend0
  · rfl
  · simp only [patchedSendBatch]
    exact hbatch0
  · rfl
  · exact hem0
  · rfl
  · simp only [patchedEachBatch]
    exact heb0

/-- C2, failing evaluation: when the wrapped promise rejects with `null`
(`typeof null === 'object'`), the catch handler's
`Object.prototype.hasOwnProperty.call(reason, 'message')` itself throws a
`TypeError`, so the promise returned by the finalizer rejects with that
`TypeError` instead of the original `null` — identity is not preserved —
while the span is still ended (by `finally`) without any status set. -/
theorem C2_code_bug :
    (endSpansOnPromise [probeSpanA] (.rejected .vNull)).2 = .rejected typeErrorValue ∧
    typeErrorValue ≠ JSValue.vNull ∧
    (endSpansOnPromise [probeSpanA] (.rejected .vNull)).1.map Span.events = [[.ended]] := by
  decide

/-- C3, failing evaluation: for the rejection value `null` — which is
neither a string nor an object exposing a `message` field, so the claim
requires every span to get error status with an undefined message before
being ended — the code instead throws a `TypeError` out of the catch
handler before reaching `setStatus`: no span receives any status event,
each is merely ended. -/
theorem C3_code_bug :
    computeErrorMessage .vNull = .error typeErrorValue ∧
    (endSpansOnPromise [probeSpanA, probeSpanB] (.rejected .vNull)).1.map Span.events =
      [[.ended], [.ended]] := by
  decide

/-- C10, failing evaluation: a `sendBatch` call with `topicMessages`
absent creates zero spans and invokes the original exactly once with the
original argument, as claimed — but when the original's promise rejects
with `null` the returned promise rejects with the catch handler's
`TypeError`, not with the original result. -/
theorem C10_code_bug :
    (patchedSendBatch emptyConfig none rootContext ⟨0⟩ ⟨none⟩
        (.returns (.rejected .vNull))).spans = [] ∧
    (patchedSendBatch emptyConfig none rootContext ⟨0⟩ ⟨none⟩
        (.returns (.rejected .vNull))).origCalls = [⟨none⟩] ∧
    (patchedSendBatch emptyConfig none rootContext ⟨0⟩ ⟨none⟩
        (.returns (.rejected .vNull))).outcome = .ok (.rejected typeErrorValue) ∧
    Settled.rejected typeErrorValue ≠ Settled.rejected JSValue.vNull := by
  decide

/-- C4, counterexample: a one-message batch whose message carries a
decodable remote producer context.  The receive span (first) gets
context `fresh 0`; the process span does carry the link
`remote "00-abc"`, but its parent is `fresh 0` — the receive span's own
context — because `_startConsumerSpan` passes `undefined` as the
explicit context while the receive span is ambient-active, so the
process span IS a child of the receive span, contradicting the claim. -/
theorem C4_counterexample :
    (patchedEachBatch emptyConfig none rootContext ⟨0⟩ eventsBatchPayload
        (.returns (.resolved .vUndefined))).spans.map (fun s => (s.parent, s.ctx, s.links)) =
      [(none, .fresh 0, []), (some (.fresh 0), .fresh 1, [.remote "00-abc"])] := by
  decide

/-- C4 (amended): for every batch-consume invocation with N messages,
exactly one receive span (first, operation "receive") plus N process
spans are created; each process span carries a link — not a parent
edge — to its own message's decoded remote producer context when one is
present; but the process spans are started with no explicit context
while the receive span is the ambient active span, so every process
span's parent is the receive span's context: they ARE children of the
receive span.  The original handler runs with the receive span active. -/
theorem C4_amended (cfg : Config) (mv : Option String) (ambient : Ctx) (st : TracerState)
    (pb : EachBatchPayload) (p : Settled) :
    ((patchedEachBatch cfg mv ambient st pb (.returns p)).spans.length =
      pb.batch.messages.length + 1) ∧
    ((patchedEachBatch cfg mv ambient st pb (.returns p)).spans.map Span.kind =
      List.replicate (pb.batch.messages.length + 1) SpanKindM.consumer) ∧
    ((patchedEachBatch cfg mv ambient st pb (.returns p)).spans.map Span.attributes =
      (consumerAttrs pb.batch.topic "receive" ++ mvAttrs cfg mv) ::
        pb.batch.messages.map (fun _ => consumerAttrs pb.batch.topic "process" ++ mvAttrs cfg mv)) ∧
    ((patchedEachBatch cfg mv ambient st pb (.returns p)).spans.map Span.links =
      [] :: pb.batch.messages.map (fun m => (linkOfMessage m).toList)) ∧
    ((patchedEachBatch cfg mv ambient st pb (.returns p)).spans.map Span.parent =
      none :: pb.batch.messages.map (fun _ => some (SpanCtx.fresh st.nextId))) ∧
    ((patchedEachBatch cfg mv ambient st pb (.returns p)).spans.map Span.ctx =
      freshSeq st.nextId (pb.batch.messages.length + 1)) ∧
    ((patchedEachBatch cfg mv ambient st pb (.returns p)).handlerCtx =
      setSpanCtx ambient (SpanCtx.fresh st.nextId)) := by
  have hproj : ∀ {α : Type} (f : Span → α), (∀ s, f (endSpan s) = f s) →
      (∀ m s, f (setStatusError m s) = f s) →
      (patchedEachBatch cfg mv ambient st pb (.returns p)).spans.map f =
        f (startConsumerSpan cfg mv ambient st pb.batch.topic none "receive"
            (some rootContext) none).span ::
          (mapBatchConsumerSpans cfg mv
            (setSpanCtx ambient (startConsumerSpan cfg mv ambient st pb.batch.topic none
              "receive" (some rootContext) none).span.ctx)
            pb.batch.topic
            (startConsumerSpan cfg mv ambient st pb.batch.topic none "receive"
              (some rootContext) none).tracer pb.batch.messages).spans.map f := by
    intro α f hf1 hf2
    simp only [patchedEachBatch]
    rw [endSpansOnPromise_map_proj f hf1 hf2, List.map_cons]
  refine ⟨?_, ?_, ?_, ?_, ?_, ?_, ?_⟩
  · have h := hproj Span.kind (fun s => rfl) (fun m s => rfl)
    have := congrArg List.length h
    simpa [mapBatchConsumerSpans_length] using this
  · rw [hproj Span.kind (fun s => rfl) (fun m s => rfl), startConsumerSpan_span,
      mapBatchConsumerSpans_map_kind, map_const_replicate, List.replicate_succ]
  · rw [hproj Span.attributes (fun s => rfl) (fun m s => rfl), startConsumerSpan_span,
      mapBatchConsumerSpans_map_attributes]
  · rw [hproj Span.links (fun s => rfl) (fun m s => rfl), startConsumerSpan_span,
      mapBatchConsumerSpans_map_links]
    rfl
  · rw [hproj Span.parent (fun s => rfl) (fun m s => rfl), startConsumerSpan_span,
      mapBatchConsumerSpans_map_parent]
    simp [rootContext, setSpanCtx]
  · rw [hproj Span.ctx (fun s => rfl) (fun m s => rfl), startConsumerSpan_span,
      startConsumerSpan_tracer, mapBatchConsumerSpans_map_ctx]
    rfl
  · simp only [patchedEachBatch]
    rw [startConsumerSpan_span]

/-- C5: a `sendBatch` call with N messages across M topic-groups creates
exactly N PRODUCER spans, named by their group's topic in group order
then per-group message order (their tracer-allocated contexts are the
consecutive fresh numbers, witnessing creation order), and invokes the
original exactly once with the same batch argument — unchanged except
for the header injection performed on each message (erasing headers
recovers the original batch).  Holds whether the original returns a
promise or throws synchronously. -/
theorem C5_sendBatch (cfg : Config) (mv : Option String) (ambient : Ctx) (st : TracerState)
    (batch : SendBatchArg) (orig : OrigBehavior) :
    ((patchedSendBatch cfg mv ambient st batch orig).spans.map Span.name =
      ((batch.topicMessages.getD []).map (fun g => g.messages.map (fun _ => g.topic))).flatten) ∧
    ((patchedSendBatch cfg mv ambient st batch orig).spans.map Span.kind =
      List.replicate (totalMessages (batch.topicMessages.getD [])) SpanKindM.producer) ∧
    ((patchedSendBatch cfg mv ambient st batch orig).spans.map Span.ctx =
      freshSeq st.nextId (totalMessages (batch.topicMessages.getD []))) ∧
    ((patchedSendBatch cfg mv ambient st batch orig).origCalls.length = 1) ∧
    ((patchedSendBatch cfg mv ambient st batch orig).origCalls.map eraseBatchHeaders =
      [eraseBatchHeaders batch]) := by
  rcases batch with ⟨tm⟩
  have hproj : ∀ {α : Type} (f : Span → α), (∀ s, f (endSpan s) = f s) →
      (∀ m s, f (setStatusError m s) = f s) →
      (patchedSendBatch cfg mv ambient st ⟨tm⟩ orig).spans.map f =
        (mapBatchProducerSpans cfg mv ambient st (tm.getD [])).spans.map f := by
    intro α f hf1 hf2
    cases orig with
    | syncThrow e => rfl
    | returns q =>
      simp only [patchedSendBatch]
      rw [endSpansOnPromise_map_proj f hf1 hf2]
  refine ⟨?_, ?_, ?_, ?_, ?_⟩
  · rw [hproj Span.name (fun s => rfl) (fun m s => rfl), mapBatchProducerSpans_map_name]
  · rw [hproj Span.kind (fun s => rfl) (fun m s => rfl), mapBatchProducerSpans_map_kind]
  · rw [hproj Span.ctx (fun s => rfl) (fun m s => rfl), mapBatchProducerSpans_map_ctx]
  · cases orig <;> cases tm <;> rfl
  · cases tm with
    | none => cases orig <;> rfl
    | some gs =>
      have hg := mapBatchProducerSpans_groups_erase cfg mv ambient st gs
      have hcall : (patchedSendBatch cfg mv ambient st ⟨some gs⟩ orig).origCalls =
          [⟨some (mapBatchProducerSpans cfg mv ambient st gs).groups⟩] := by
        cases orig <;> rfl
      rw [hcall]
      simp only [List.map_cons, List.map_nil, eraseBatchHeaders, Option.map_some']
      rw [hg]

/-- C6: producer-span creation ensures the message's header mapping
exists (an absent mapping becomes the empty one) and injects the context
combining the active context with the new producer span into those
headers; in the wrapped `send` and `sendBatch` alike, every message
passed to the original carries, under the propagation key, the wire
encoding of its own span's context — one span and one injection per
message, independently. -/
theorem C6_inject (cfg : Config) (mv : Option String) (ambient : Ctx) (st : TracerState)
    (topic : String) (message : Message) (record : ProducerRecord) (batch : SendBatchArg)
    (orig : OrigBehavior) :
    ((startProducerSpan cfg mv ambient st topic message).message =
      { message with headers := some (inject (setSpanCtx ambient
          (startProducerSpan cfg mv ambient st topic message).span.ctx)
          (message.headers.getD [])) }) ∧
    ((startProducerSpan cfg mv ambient st topic message).message.headers.isSome = true) ∧
    ((patchedSend cfg mv ambient st record orig).origCalls.map
        (fun rec => rec.messages.map (fun m => m.headers.bind (hdrLookup "traceparent"))) =
      [(patchedSend cfg mv ambient st record orig).spans.map
        (fun s => some (HeaderVal.hvStr (encodeSpanCtx s.ctx)))]) ∧
    ((patchedSendBatch cfg mv ambient st batch orig).origCalls.map
        (fun b => ((b.topicMessages.getD []).map
          (fun g => g.messages.map (fun m => m.headers.bind (hdrLookup "traceparent")))).flatten) =
      [(patchedSendBatch cfg mv ambient st batch orig).spans.map
        (fun s => some (HeaderVal.hvStr (encodeSpanCtx s.ctx)))]) := by
  have hps : ∀ {α : Type} (f : Span → α), (∀ s, f (endSpan s) = f s) →
      (∀ m s, f (setStatusError m s) = f s) →
      (patchedSend cfg mv ambient st record orig).spans.map f =
        (mapProducerSpans cfg mv ambient record.topic st record.messages).spans.map f := by
    intro α f hf1 hf2
    cases orig with
    | syncThrow e => rfl
    | returns q =>
      simp only [patchedSend]
      rw [endSpansOnPromise_map_proj f hf1 hf2]
  have hpb : ∀ {α : Type} (f : Span → α), (∀ s, f (endSpan s) = f s) →
      (∀ m s, f (setStatusError m s) = f s) →
      (patchedSendBatch cfg mv ambient st batch orig).spans.map f =
        (mapBatchProducerSpans cfg mv ambient st (batch.topicMessages.getD [])).spans.map f := by
    intro α f hf1 hf2
    cases orig with
    | syncThrow e => rfl
    | returns q =>
      simp only [patchedSendBatch]
      rw [endSpansOnPromise_map_proj f hf1 hf2]
  refine ⟨?_, ?_, ?_, ?_⟩
  · rw [startProducerSpan_message, startProducerSpan_span]
  · rw [startProducerSpan_message]
    simp
  · have h1 : (patchedSend cfg mv ambient st record orig).origCalls =
        [{ record with messages :=
            (mapProducerSpans cfg mv ambient record.topic st record.messages).messages }] := by
      cases orig <;> rfl
    rw [h1, hps (fun s => some (HeaderVal.hvStr (encodeSpanCtx s.ctx))) (fun s => rfl)
      (fun m s => rfl)]
    simp only [List.map_cons, List.map_nil]
    rw [mapProducerSpans_messages_lookup]
  · rcases batch with ⟨tm⟩
    cases tm with
    | none =>
      have h1 : (patchedSendBatch cfg mv ambient st ⟨none⟩ orig).origCalls = [⟨none⟩] := by
        cases orig <;> rfl
      rw [h1, hpb (fun s => some (HeaderVal.hvStr (encodeSpanCtx s.ctx))) (fun s => rfl)
        (fun m s => rfl)]
      simp [mapBatchProducerSpans]
    | some gs =>
      have h1 : (patchedSendBatch cfg mv ambient st ⟨some gs⟩ orig).origCalls =
          [⟨some (mapBatchProducerSpans cfg mv ambient st gs).groups⟩] := by
        cases orig <;> rfl
      rw [h1, hpb (fun s => some (HeaderVal.hvStr (encodeSpanCtx s.ctx))) (fun s => rfl)
        (fun m s => rfl)]
      simp only [List.map_cons, List.map_nil, Option.getD_some]
      rw [mapBatchProducerSpans_lookup]

/-- C7: the wrapped `eachMessage` extracts a context from the incoming
message's headers (starting from the empty `ROOT_CONTEXT`, through the
buffer-tolerant getter) and uses it as the parent of the single process
span and, extended with that span, as the context the handler runs
under; when headers are absent, when they carry no propagation entry, or
when the entry does not decode, the parent falls back to the empty
context's (no parent), and nothing throws (the wrapper's outcome is
never a synchronous error when the handler returns a promise). -/
theorem C7_eachMessage (cfg : Config) (mv : Option String) (ambient : Ctx) (st : TracerState)
    (pm : EachMessagePayload) (p : Settled) :
    ((patchedEachMessage cfg mv ambient st pm (.returns p)).spans.map Span.parent =
      [(extract rootContext pm.message.headers bufferTextMapGetter).activeSpan]) ∧
    ((patchedEachMessage cfg mv ambient st pm (.returns p)).spans.length = 1) ∧
    ((patchedEachMessage cfg mv ambient st pm (.returns p)).handlerCtx =
      setSpanCtx (extract rootContext pm.message.headers bufferTextMapGetter)
        (SpanCtx.fresh st.nextId)) ∧
    (∀ e, (patchedEachMessage cfg mv ambient st pm (.returns p)).outcome ≠ .error e) ∧
    (pm.message.headers = none →
      (patchedEachMessage cfg mv ambient st pm (.returns p)).spans.map Span.parent = [none]) ∧
    (∀ h, pm.message.headers = some h → hdrLookup "traceparent" h = none →
      (patchedEachMessage cfg mv ambient st pm (.returns p)).spans.map Span.parent = [none]) ∧
    (∀ h v, pm.message.headers = some h → hdrLookup "traceparent" h = some v →
      decodeTraceparent (headerValToString v) = none →
      (patchedEachMessage cfg mv ambient st pm (.returns p)).spans.map Span.parent = [none]) := by
  have hpar : (patchedEachMessage cfg mv ambient st pm (.returns p)).spans.map Span.parent =
      [(extract rootContext pm.message.headers bufferTextMapGetter).activeSpan] := by
    simp only [patchedEachMessage]
    rw [endSpansOnPromise_map_proj Span.parent (fun s => rfl) (fun m s => rfl)]
    rw [List.map_cons, List.map_nil, startConsumerSpan_span]
    rfl
  refine ⟨hpar, ?_, ?_, ?_, ?_, ?_, ?_⟩
  · have := congrArg List.length hpar
    simpa using this
  · simp only [patchedEachMessage]
    rw [startConsumerSpan_span]
  · intro e
    simp [patchedEachMessage]
  · intro hn
    rw [hpar, hn]
    rfl
  · intro h hh hl
    rw [hpar, hh]
    simp [extract, bufferTextMapGetter, hl, rootContext]
  · intro h v hh hl hd
    rw [hpar, hh]
    simp [extract, bufferTextMapGetter, hl, hd, rootContext]

/-- C7 witness: a message without headers yields a process span with no
parent. -/
theorem C7_witness :
    (⟨"m", none⟩ : Message).headers = none ∧
    (patchedEachMessage emptyConfig none rootContext ⟨0⟩ ⟨"t", ⟨"m", none⟩⟩
        (.returns (.resolved .vUndefined))).spans.map Span.parent = [none] :=
  ⟨rfl, (C7_eachMessage emptyConfig none rootContext ⟨0⟩ ⟨"t", ⟨"m", none⟩⟩
      (.resolved .vUndefined)).2.2.2.2.1 rfl⟩

/-- C8: the propagation carrier adapter never throws — an absent carrier
yields `undefined` from `get` and the empty sequence from `keys`; an
absent key yields `undefined`; a string value is returned as is and a
byte-buffer value is coerced to its text representation; `keys` returns
all the carrier's keys.  (Both operations are pure functions of the
carrier: no side effects by construction.) -/
theorem C8_getter (carrier : Option Headers) (key : String) :
    (carrier = none →
      bufferTextMapGetter.get carrier key = none ∧ bufferTextMapGetter.keys carrier = []) ∧
    (∀ h, carrier = some h →
      (hdrLookup key h = none → bufferTextMapGetter.get carrier key = none) ∧
      (∀ s, hdrLookup key h = some (.hvStr s) → bufferTextMapGetter.get carrier key = some s) ∧
      (∀ bs, hdrLookup key h = some (.hvBuf bs) →
        bufferTextMapGetter.get carrier key = some (bufToString bs)) ∧
      bufferTextMapGetter.keys carrier = h.map Prod.fst) := by
  constructor
  · intro hn
    subst hn
    exact ⟨rfl, rfl⟩
  · intro h hs
    subst hs
    refine ⟨?_, ?_, ?_, rfl⟩
    · intro hl
      simp [bufferTextMapGetter, hl]
    · intro s hl
      simp [bufferTextMapGetter, hl, headerValToString]
    · intro bs hl
      simp [bufferTextMapGetter, hl, headerValToString]

/-- C8 witness: a buffer-valued entry is read back as text; an absent
carrier reads as `undefined`. -/
theorem C8_witness :
    hdrLookup "k" [("k", HeaderVal.hvBuf [104, 105])] = some (.hvBuf [104, 105]) ∧
    bufferTextMapGetter.get (some [("k", HeaderVal.hvBuf [104, 105])]) "k" =
      some (bufToString [104, 105]) ∧
    bufferTextMapGetter.get none "k" = none :=
  ⟨rfl,
    ((C8_getter (some [("k", HeaderVal.hvBuf [104, 105])]) "k").2 _ rfl).2.2.1 [104, 105] rfl,
    ((C8_getter none "k").1 rfl).1⟩

/-- C9: an exception thrown by a configured producer or consumer hook
never affects the created span (nor, for producers, the injected
message) — the span the factory returns is the same as with no hook —
and the failure is logged; the consumer hook runs exactly when a hook is
configured and a message is present, so the synthetic batch-receive
span, which has no message, always skips it. -/
theorem C9_hooks (cfg : Config) (mv : Option String) (ambient : Ctx) (st : TracerState)
    (topic : String) (m : Message) (message : Option Message) (operation : String)
    (ctx : Option Ctx) (link : Option SpanCtx) (e : JSValue) :
    ((startConsumerSpan { cfg with consumerHook := some (.throws e) } mv ambient st topic
        message operation ctx link).span =
      (startConsumerSpan cfg mv ambient st topic message operation ctx link).span) ∧
    ((startConsumerSpan cfg mv ambient st topic message operation ctx link).hookCalled =
      (cfg.consumerHook.isSome && message.isSome)) ∧
    ((startConsumerSpan cfg mv ambient st topic none operation ctx link).hookCalled = false) ∧
    ((startConsumerSpan { cfg with consumerHook := some (.throws e) } mv ambient st topic
        (some m) operation ctx link).log = ["kafkajs instrumentation: consumerHook error"]) ∧
    ((startProducerSpan { cfg with producerHook := some (.throws e) } mv ambient st topic m).span =
      (startProducerSpan cfg mv ambient st topic m).span) ∧
    ((startProducerSpan { cfg with producerHook := some (.throws e) } mv ambient st topic
        m).message = (startProducerSpan cfg mv ambient st topic m).message) ∧
    ((startProducerSpan { cfg with producerHook := some (.throws e) } mv ambient st topic m).log =
      ["kafkajs instrumentation: producerHook error"]) := by
  refine ⟨?_, ?_, ?_, ?_, ?_, ?_, ?_⟩
  · rw [startConsumerSpan_span, startConsumerSpan_span]
    rfl
  · unfold startConsumerSpan
    cases hh : cfg.consumerHook <;> cases message <;> simp
  · unfold startConsumerSpan
    cases hh : cfg.consumerHook <;> simp
  · rfl
  · rw [startProducerSpan_span, startProducerSpan_span]
    rfl
  · rw [startProducerSpan_message, startProducerSpan_message]
  · rfl

end SplunkKafka
